import Mathlib

/-!
Shallow embedding of the persistence / migration layer of the todo
application (`lib/db.ts` together with the `TodoItem` / `TodoList` types of
`lib/types.ts`).

Modelling conventions:
* The SQLite store is a record `DB`: the `user_version` pragma, existence
  flags for the two tables and for the three columns added by the
  version-2 upgrade, the row lists of both tables, and a counter driving
  the uuid generator.
* `crypto.randomUUID` is embedded as an injective generator `mkUUID`
  applied to the store's call counter (the generated strings are opaque in
  the source; only freshness matters).
* JavaScript `Date` values are represented by their ISO-8601 strings, so
  `new Date(s)` / `d.toISOString()` are identities of the model; the
  wall clock is passed explicitly (`now`).
* SQL `NULL` and JS `undefined` are both `Option.none`; JS truthiness on a
  string (`if (listId)`, `notes || null`) is false exactly on absence and
  on the empty string.
-/

structure TodoRow where
  id : String
  text : String
  done : Bool
  createdAt : String
  listId : Option String
  notes : Option String
  dueDate : Option String
deriving Repr, DecidableEq

structure ListRow where
  id : String
  name : String
deriving Repr, DecidableEq

structure DB where
  userVersion : Nat
  todosCreated : Bool
  listsCreated : Bool
  hasListId : Bool
  hasNotes : Bool
  hasDueDate : Bool
  todos : List TodoRow
  lists : List ListRow
  uuidCounter : Nat
deriving Repr, DecidableEq

/-- Model of `crypto.randomUUID()`: the `n`-th uuid ever generated.
The concrete characters are irrelevant (the source treats uuids as opaque
strings); the definition is chosen so that injectivity is immediate. -/
def mkUUID (n : Nat) : String :=
  String.mk ('u' :: List.replicate n 'x')

/-- JS truthiness of a nullable string: `undefined`/`null` and `""` are
falsy, everything else truthy. -/
def truthyStr : Option String → Bool
  | none => false
  | some s => !(s == "")

/-- `s || null` on a nullable string: empty strings collapse to `NULL`. -/
def orNull (s : Option String) : Option String :=
  if truthyStr s then s else none

/-- `initializeDB` (migration step 0 → 1): `CREATE TABLE IF NOT EXISTS
todos` (4 columns) and insert the three sample rows, with ids from
`crypto.randomUUID()`. -/
def initializeDB (db : DB) : DB :=
  let todo1Id := mkUUID db.uuidCounter
  let todo2Id := mkUUID (db.uuidCounter + 1)
  let todo3Id := mkUUID (db.uuidCounter + 2)
  let db := { db with uuidCounter := db.uuidCounter + 3 }
  let db := if db.todosCreated then db else
    { db with todosCreated := true, todos := [] }
  { db with todos := db.todos ++
      [ { id := todo1Id, text := "Sample Todo from DB", done := false,
          createdAt := "2023-01-01T00:00:00Z",
          listId := none, notes := none, dueDate := none },
        { id := todo2Id, text := "Sample Todo 2 from DB", done := true,
          createdAt := "2023-01-02T00:00:00Z",
          listId := none, notes := none, dueDate := none },
        { id := todo3Id, text := "Sample Todo 3 from DB", done := false,
          createdAt := "2023-01-03T00:00:00Z",
          listId := none, notes := none, dueDate := none } ] }

/-- `upgradeToVersion2` (migration step 1 → 2): create `todo_lists` if
absent, attempt the three `ALTER TABLE ... ADD COLUMN`s (failure on an
existing column is caught and ignored), insert the sentinel list row if
absent, and backfill `listId` on rows where it is `NULL`. -/
def upgradeToVersion2 (db : DB) : DB :=
  let db := if db.listsCreated then db else
    { db with listsCreated := true, lists := [] }
  let db := if db.hasListId then db else { db with hasListId := true }
  let db := if db.hasNotes then db else { db with hasNotes := true }
  let db := if db.hasDueDate then db else { db with hasDueDate := true }
  let defaultListCount := (db.lists.filter (fun l => l.id == "default-list")).length
  let db := if defaultListCount == 0 then
    { db with lists := db.lists ++ [⟨"default-list", "Todas as Tarefas"⟩] }
    else db
  { db with todos := db.todos.map (fun t =>
      if t.listId == none then { t with listId := some "default-list" } else t) }

/-- `migrateDB`: read `PRAGMA user_version`; return at once when already at
the target version 2; otherwise run step 0→1 when at 0, then step 1→2 when
the (locally advanced) version is 1, and finally persist
`PRAGMA user_version = 2`. -/
def migrateDB (db : DB) : DB :=
  let DATABASE_VERSION := 2
  let currentDbVersion := db.userVersion
  if currentDbVersion == DATABASE_VERSION then db
  else
    let (db, currentDbVersion) :=
      if currentDbVersion == 0 then (initializeDB db, 1) else (db, currentDbVersion)
    let (db, _currentDbVersion) :=
      if currentDbVersion == 1 then (upgradeToVersion2 db, 2) else (db, currentDbVersion)
    { db with userVersion := DATABASE_VERSION }

/-- Instrumented `migrateDB`, identical control flow, additionally
recording each upgrade step that runs as a `(from, to)` pair, in order. -/
def migrateDBSteps (db : DB) : DB × List (Nat × Nat) :=
  if db.userVersion == 2 then (db, [])
  else
    let (db1, v1, s1) :=
      if db.userVersion == 0 then (initializeDB db, 1, [(0, 1)])
      else (db, db.userVersion, [])
    let (db2, _v2, s2) :=
      if v1 == 1 then (upgradeToVersion2 db1, 2, s1 ++ [(1, 2)])
      else (db1, v1, s1)
    ({ db2 with userVersion := 2 }, s2)

/-- `getDBVersion`: `PRAGMA user_version`. -/
def getDBVersion (db : DB) : Nat := db.userVersion

/-- `getAllTodos`: `SELECT * FROM todos` (the `Date` re-wrapping of
`createdAt`/`dueDate` is the identity of the model). -/
def getAllTodos (db : DB) : List TodoRow := db.todos

/-- `getTodosByList`: on a truthy `listId`, `SELECT * FROM todos WHERE
listId = ?`; otherwise (absent or empty string) `SELECT * FROM todos`. -/
def getTodosByList (db : DB) (listId : Option String) : List TodoRow :=
  if truthyStr listId then
    db.todos.filter (fun t => t.listId == listId)
  else
    db.todos

/-- `getAllLists`: `SELECT * FROM todo_lists ORDER BY name`. -/
def getAllLists (db : DB) : List ListRow :=
  db.lists.mergeSort (fun a b => a.name ≤ b.name)

/-- `createList`: insert a row with a fresh uuid and the given name,
returning the persisted row. -/
def createList (db : DB) (name : String) : ListRow × DB :=
  let id := mkUUID db.uuidCounter
  let row : ListRow := ⟨id, name⟩
  (row, { db with uuidCounter := db.uuidCounter + 1, lists := db.lists ++ [row] })

/-- `createTodo`: fresh uuid, `createdAt` = current instant, `done = 0`,
`listId` defaulting to `default-list`, `notes || null`, `dueDate`
serialized or `NULL`; inserts the row and returns it. -/
def createTodo (db : DB) (text : String) (listId : Option String)
    (notes : Option String) (dueDate : Option String) (now : String) :
    TodoRow × DB :=
  let id := mkUUID db.uuidCounter
  let createdAt := now
  let dueDateString := dueDate
  let row : TodoRow :=
    { id := id, text := text, done := false, createdAt := createdAt,
      listId := some (listId.getD "default-list"),
      notes := orNull notes, dueDate := dueDateString }
  (row, { db with uuidCounter := db.uuidCounter + 1, todos := db.todos ++ [row] })

/-- `updateTodoStatus`: `UPDATE todos SET done = ? WHERE id = ?
RETURNING ...`; `null` when no row matched. -/
def updateTodoStatus (db : DB) (id : String) (done : Bool) :
    Option TodoRow × DB :=
  let todos := db.todos.map (fun t => if t.id == id then { t with done := done } else t)
  match todos.find? (fun t => t.id == id) with
  | none => (none, db)
  | some result => (some result, { db with todos := todos })

/-- The field-update arguments of `updateTodo` (each field optional). -/
structure TodoUpdates where
  text : Option String := none
  notes : Option String := none
  dueDate : Option String := none
  listId : Option String := none
deriving Repr, DecidableEq

/-- JS nullish coalescing `upd ?? cur` on an optional field. -/
def jsNullish (upd cur : Option String) : Option String :=
  match upd with
  | some v => some v
  | none => cur

/-- `updateTodo`: read the row (`null` when absent), merge the provided
fields over it (`??`, with `notes || null` and `dueDate` re-serialized),
and write all four mutable columns back, returning the merged row. -/
def updateTodo (db : DB) (id : String) (updates : TodoUpdates) :
    Option TodoRow × DB :=
  match db.todos.find? (fun t => t.id == id) with
  | none => (none, db)
  | some todo =>
    let text := updates.text.getD todo.text
    let notes := jsNullish updates.notes todo.notes
    let dueDate := jsNullish updates.dueDate todo.dueDate
    let listId := jsNullish updates.listId todo.listId
    let todos := db.todos.map (fun t =>
      if t.id == id then
        { t with text := text, notes := orNull notes,
                 dueDate := dueDate, listId := listId }
      else t)
    match todos.find? (fun t => t.id == id) with
    | none => (none, db)
    | some result => (some result, { db with todos := todos })

/-- The store of a fresh install: no tables, `user_version` 0. -/
def emptyDB : DB :=
  { userVersion := 0, todosCreated := false, listsCreated := false,
    hasListId := false, hasNotes := false, hasDueDate := false,
    todos := [], lists := [], uuidCounter := 0 }

/-- Well-formedness of stored notes: never the empty string (the invariant
of claim C10; every DAL write funnels notes through `notes || null`). -/
def NotesWF (db : DB) : Prop :=
  ∀ t ∈ db.todos, t.notes ≠ some ""

instance : DecidablePred NotesWF := fun db =>
  inferInstanceAs (Decidable (∀ t ∈ db.todos, t.notes ≠ some ""))

/-- A store whose persisted version marker is 3 (e.g. written by a newer
application version), otherwise fresh. -/
def dbAtVersion3 : DB := { emptyDB with userVersion := 3 }

/-- A task row that is already completed (`done = true`). -/
def doneRow : TodoRow :=
  { id := "t1", text := "done task", done := true,
    createdAt := "2023-01-01T00:00:00Z",
    listId := some "default-list", notes := none, dueDate := none }

/-- A migrated store holding the single completed task `doneRow`. -/
def doneTaskDB : DB :=
  { userVersion := 2, todosCreated := true, listsCreated := true,
    hasListId := true, hasNotes := true, hasDueDate := true,
    todos := [doneRow],
    lists := [⟨"default-list", "Todas as Tarefas"⟩],
    uuidCounter := 0 }

/-- The chain of one-step upgrades from version `v` up to version 2. -/
def versionChain (v : Nat) : List (Nat × Nat) :=
  (List.range (2 - v)).map (fun i => (v + i, v + i + 1))

lemma migrateDB_fix (db : DB) (h : db.userVersion = 2) : migrateDB db = db := by
  unfold migrateDB
  simp [h]

lemma migrateDB_userVersion_of_ne (db : DB) (h : ¬ db.userVersion = 2) :
    (migrateDB db).userVersion = 2 := by
  unfold migrateDB
  by_cases h0 : db.userVersion = 0 <;> by_cases h1 : db.userVersion = 1 <;>
    simp [h, h0, h1]

/-- C1: running `migrate` on a fresh store (version 0) yields exactly 3
seeded task rows, exactly 1 list row `(default-list, Todas as
Tarefas)`, persisted schema version 2, and every seeded task's `listId`
equal to `default-list`. -/
theorem migrate_fresh_store_seeds :
    (migrateDB emptyDB).todos.length = 3 ∧
    (migrateDB emptyDB).lists = [⟨"default-list", "Todas as Tarefas"⟩] ∧
    (migrateDB emptyDB).userVersion = 2 ∧
    ∀ t ∈ (migrateDB emptyDB).todos, t.listId = some "default-list" := by
  decide

/-- C2: `migrate` is idempotent — running it twice on any starting store
produces exactly the final store of running it once (the second run sees
version 2 and returns at once). -/
theorem migrate_idempotent (db : DB) :
    migrateDB (migrateDB db) = migrateDB db := by
  by_cases h : db.userVersion = 2
  · rw [migrateDB_fix db h, migrateDB_fix db h]
  · exact migrateDB_fix (migrateDB db) (migrateDB_userVersion_of_ne db h)

/-- C3 counterexample: from a store at persisted version 3, `migrate`
writes the version marker back down to 2 — the persisted version
decreases, refuting "never decreasing" for arbitrary starting versions. -/
theorem migrate_decreases_version_at_3 :
    (migrateDB dbAtVersion3).userVersion < dbAtVersion3.userVersion := by
  decide

/-- C3 (amended): for every starting version `v ≤ 2`, `migrate` runs
exactly the one-step upgrades `v→v+1→...→2` in increasing order — each
recorded step increments the version by exactly one, none is skipped — and
the persisted version marker never decreases, ending at 2. (For `v > 2`
the code instead writes the marker back to 2, a decrease.) -/
theorem migrate_forward_one_step_at_a_time (db : DB)
    (h : db.userVersion ≤ 2) :
    (migrateDBSteps db).2 = versionChain db.userVersion ∧
    (∀ p ∈ (migrateDBSteps db).2, p.2 = p.1 + 1) ∧
    db.userVersion ≤ (migrateDBSteps db).1.userVersion ∧
    (migrateDBSteps db).1.userVersion = 2 ∧
    (migrateDBSteps db).1 = migrateDB db := by
  have hv : db.userVersion = 0 ∨ db.userVersion = 1 ∨ db.userVersion = 2 := by
    omega
  rcases hv with hv | hv | hv <;>
    simp [migrateDBSteps, migrateDB, versionChain, hv, List.range_succ]

theorem migrate_forward_one_step_at_a_time_witness :
    emptyDB.userVersion ≤ 2 ∧
    ((migrateDBSteps emptyDB).2 = versionChain emptyDB.userVersion ∧
    (∀ p ∈ (migrateDBSteps emptyDB).2, p.2 = p.1 + 1) ∧
    emptyDB.userVersion ≤ (migrateDBSteps emptyDB).1.userVersion ∧
    (migrateDBSteps emptyDB).1.userVersion = 2 ∧
    (migrateDBSteps emptyDB).1 = migrateDB emptyDB) :=
  ⟨by decide, migrate_forward_one_step_at_a_time emptyDB (by decide)⟩
lemma find?_map_preserve (l : List TodoRow) (p : TodoRow → Bool)
    (f : TodoRow → TodoRow) (hf : ∀ t, p (f t) = p t) :
    (l.map f).find? p = (l.find? p).map f := by
  induction l with
  | nil => rfl
  | cons a tl ih =>
    by_cases h : p a
    · simp [List.find?_cons, hf, h]
    · simp [List.find?_cons, hf, h, ih]

lemma find?_map_ifid (l : List TodoRow) (id : String) (g : TodoRow → TodoRow)
    (hg : ∀ t, (g t).id = t.id) :
    (l.map (fun t => if t.id == id then g t else t)).find? (fun t => t.id == id) =
      (l.find? (fun t => t.id == id)).map (fun t => if t.id == id then g t else t) :=
  find?_map_preserve l _ _ (fun t => by by_cases ht : t.id == id <;> simp [ht, hg])

lemma orNull_ne_empty (s : Option String) : orNull s ≠ some "" := by
  cases s with
  | none => simp [orNull, truthyStr]
  | some v => by_cases hv : v = "" <;> simp [orNull, truthyStr, hv]

lemma orNull_of_ne_empty (s : Option String) (h : s ≠ some "") : orNull s = s := by
  cases s with
  | none => rfl
  | some v =>
    have hv : v ≠ "" := by
      intro e
      exact h (by rw [e])
    simp [orNull, truthyStr, hv]

lemma updateTodoStatus_found (db : DB) (id : String) (d : Bool) (tRow : TodoRow)
    (h : db.todos.find? (fun t => t.id == id) = some tRow) :
    updateTodoStatus db id d =
      (some { tRow with done := d },
       { db with todos := db.todos.map (fun t =>
           if t.id == id then { t with done := d } else t) }) := by
  have hid : tRow.id = id := by simpa using List.find?_some h
  simp only [updateTodoStatus]
  rw [find?_map_ifid db.todos id (fun t => { t with done := d }) (fun t => rfl), h]
  simp [hid]

lemma updateTodo_found (db : DB) (id : String) (u : TodoUpdates) (tRow : TodoRow)
    (h : db.todos.find? (fun t => t.id == id) = some tRow) :
    updateTodo db id u =
      (some { tRow with
          text := u.text.getD tRow.text,
          notes := orNull (jsNullish u.notes tRow.notes),
          dueDate := jsNullish u.dueDate tRow.dueDate,
          listId := jsNullish u.listId tRow.listId },
       { db with todos := db.todos.map (fun t =>
           if t.id == id then
             { t with text := u.text.getD tRow.text,
                      notes := orNull (jsNullish u.notes tRow.notes),
                      dueDate := jsNullish u.dueDate tRow.dueDate,
                      listId := jsNullish u.listId tRow.listId }
           else t) }) := by
  have hid : tRow.id = id := by simpa using List.find?_some h
  simp only [updateTodo, h]
  rw [find?_map_ifid db.todos id (fun t =>
      { t with text := u.text.getD tRow.text,
               notes := orNull (jsNullish u.notes tRow.notes),
               dueDate := jsNullish u.dueDate tRow.dueDate,
               listId := jsNullish u.listId tRow.listId }) (fun t => rfl), h]
  simp [hid]

/-- C6: `updateTodoStatus` and `updateTodo` on an id matching no existing
task both return the absent result (`none`) rather than a fault, and leave
the store unchanged. -/
theorem update_absent_id_is_absent_result (db : DB) (id : String)
    (d : Bool) (u : TodoUpdates) (h : ∀ t ∈ db.todos, t.id ≠ id) :
    updateTodoStatus db id d = (none, db) ∧ updateTodo db id u = (none, db) := by
  have hf : db.todos.find? (fun t => t.id == id) = none := by
    simp only [List.find?_eq_none, beq_iff_eq]
    exact h
  constructor
  · simp only [updateTodoStatus]
    rw [find?_map_ifid db.todos id (fun t => { t with done := d }) (fun t => rfl), hf]
    rfl
  · simp only [updateTodo]
    rw [hf]

theorem update_absent_id_is_absent_result_witness :
    (∀ t ∈ (migrateDB emptyDB).todos, t.id ≠ "no-such-id") ∧
    (updateTodoStatus (migrateDB emptyDB) "no-such-id" true =
      (none, migrateDB emptyDB) ∧
     updateTodo (migrateDB emptyDB) "no-such-id" {} =
      (none, migrateDB emptyDB)) :=
  ⟨by decide,
   update_absent_id_is_absent_result (migrateDB emptyDB) "no-such-id" true {} (by decide)⟩

/-- C7 counterexample: on a task whose original `done` is `true`, calling
`updateTodoStatus(id, true)` and then `updateTodoStatus(id, false)` leaves
`done = false`, which differs from the original value — the pair of calls
does not restore the original `done` of every existing task. -/
theorem status_true_then_false_counterexample :
    (∃ t ∈ doneTaskDB.todos, t.id = "t1" ∧ t.done = true) ∧
    ((updateTodoStatus (updateTodoStatus doneTaskDB "t1" true).2 "t1" false).2.todos.find?
        (fun t => t.id == "t1")).map (fun t => t.done) = some false := by
  decide

/-- C7 (amended): on any existing task, `updateTodoStatus(id, true)`
followed by `updateTodoStatus(id, false)` leaves the task with
`done = false` — equal to the original `done` exactly when the task was
originally pending — and neither call changes any field other than `done`
(the final row is the original row with `done := false`, both as returned
and as persisted). -/
theorem status_true_then_false_spec (db : DB) (id : String) (tRow : TodoRow)
    (h : db.todos.find? (fun t => t.id == id) = some tRow) :
    (updateTodoStatus db id true).1 = some { tRow with done := true } ∧
    (updateTodoStatus (updateTodoStatus db id true).2 id false).1 =
      some { tRow with done := false } ∧
    (updateTodoStatus (updateTodoStatus db id true).2 id false).2.todos.find?
      (fun t => t.id == id) = some { tRow with done := false } ∧
    (tRow.done = false →
      (updateTodoStatus (updateTodoStatus db id true).2 id false).1 = some tRow) := by
  have hid : tRow.id = id := by simpa using List.find?_some h
  have e1 := updateTodoStatus_found db id true tRow h
  have h1 : (updateTodoStatus db id true).2.todos.find? (fun t => t.id == id) =
      some { tRow with done := true } := by
    rw [e1]
    rw [find?_map_ifid db.todos id (fun t => { t with done := true }) (fun t => rfl), h]
    simp [hid]
  have e2 := updateTodoStatus_found (updateTodoStatus db id true).2 id false
    { tRow with done := true } h1
  refine ⟨by rw [e1], by rw [e2], ?_, ?_⟩
  · rw [e2]
    rw [find?_map_ifid (updateTodoStatus db id true).2.todos id
      (fun t => { t with done := false }) (fun t => rfl), h1]
    simp [hid]
  · intro hd
    rw [e2]
    cases tRow
    simp_all

theorem status_true_then_false_spec_witness :
    doneTaskDB.todos.find? (fun t => t.id == "t1") = some doneRow ∧
    ((updateTodoStatus doneTaskDB "t1" true).1 = some { doneRow with done := true } ∧
     (updateTodoStatus (updateTodoStatus doneTaskDB "t1" true).2 "t1" false).1 =
       some { doneRow with done := false } ∧
     (updateTodoStatus (updateTodoStatus doneTaskDB "t1" true).2 "t1" false).2.todos.find?
       (fun t => t.id == "t1") = some { doneRow with done := false } ∧
     (doneRow.done = false →
       (updateTodoStatus (updateTodoStatus doneTaskDB "t1" true).2 "t1" false).1 =
         some doneRow)) :=
  ⟨by decide, status_true_then_false_spec doneTaskDB "t1" doneRow (by decide)⟩

/-- C4: on any existing task whose stored notes satisfy the maintained
well-formedness invariant (never the empty string, see C10), an update
argument containing only a new text value changes only `text`: `notes`,
`dueDate`, `listId`, `createdAt`, `id` (and `done`) are identical to their
pre-call values in both the returned record and the persisted row; more
generally, any field omitted from the update retains its current persisted
value. -/
theorem update_retains_omitted_fields (db : DB) (id : String) (tRow : TodoRow)
    (u : TodoUpdates)
    (h : db.todos.find? (fun t => t.id == id) = some tRow)
    (hnotes : tRow.notes ≠ some "") :
    (∀ newText,
      (updateTodo db id { text := some newText }).1 =
        some { tRow with text := newText } ∧
      (updateTodo db id { text := some newText }).2.todos.find?
        (fun t => t.id == id) = some { tRow with text := newText }) ∧
    (∀ r, (updateTodo db id u).1 = some r →
      r.id = tRow.id ∧ r.createdAt = tRow.createdAt ∧ r.done = tRow.done ∧
      (u.text = none → r.text = tRow.text) ∧
      (u.notes = none → r.notes = tRow.notes) ∧
      (u.dueDate = none → r.dueDate = tRow.dueDate) ∧
      (u.listId = none → r.listId = tRow.listId)) := by
  have hid : tRow.id = id := by simpa using List.find?_some h
  constructor
  · intro newText
    have e := updateTodo_found db id { text := some newText } tRow h
    constructor
    · rw [e]
      simp [jsNullish, orNull_of_ne_empty tRow.notes hnotes, Option.getD]
    · rw [e]
      rw [find?_map_ifid db.todos id (fun t =>
          { t with
              text := (TodoUpdates.text { text := some newText }).getD tRow.text,
              notes := orNull (jsNullish (TodoUpdates.notes { text := some newText }) tRow.notes),
              dueDate := jsNullish (TodoUpdates.dueDate { text := some newText }) tRow.dueDate,
              listId := jsNullish (TodoUpdates.listId { text := some newText }) tRow.listId })
        (fun t => rfl), h]
      simp [hid, jsNullish, orNull_of_ne_empty tRow.notes hnotes]
  · intro r hr
    have e := updateTodo_found db id u tRow h
    rw [e] at hr
    have hr' : r = { tRow with
        text := u.text.getD tRow.text,
        notes := orNull (jsNullish u.notes tRow.notes),
        dueDate := jsNullish u.dueDate tRow.dueDate,
        listId := jsNullish u.listId tRow.listId } := by
      exact (Option.some.injEq _ _ ▸ hr).symm
    subst hr'
    refine ⟨rfl, rfl, rfl, ?_, ?_, ?_, ?_⟩
    · intro hu; simp [hu]
    · intro hu; simp [hu, jsNullish, orNull_of_ne_empty tRow.notes hnotes]
    · intro hu; simp [hu, jsNullish]
    · intro hu; simp [hu, jsNullish]

theorem update_retains_omitted_fields_witness :
    (doneTaskDB.todos.find? (fun t => t.id == "t1") = some doneRow ∧
     doneRow.notes ≠ some "") ∧
    (updateTodo doneTaskDB "t1" { text := some "X" }).1 =
      some { doneRow with text := "X" } :=
  ⟨⟨by decide, by decide⟩,
   ((update_retains_omitted_fields doneTaskDB "t1" doneRow {}
      (by decide) (by decide)).1 "X").1⟩

lemma mkUUID_injective : Function.Injective mkUUID := by
  intro m n h
  have h2 : ('u' :: List.replicate m 'x') = ('u' :: List.replicate n 'x') := by
    have h1 := congrArg String.data h
    simpa [mkUUID] using h1
  have h3 := congrArg List.length h2
  simpa using h3

/-- C5: `createTodo` returns (and persists, as the appended row) a task
whose `done` is false, whose `createdAt` is the instant of creation, whose
`listId` is the given one (or `default-list` when unspecified), and
whose id is the freshly generated uuid — distinct from every id already in
the store, provided all stored ids came from earlier generator calls. -/
theorem createTodo_spec (db : DB) (text : String)
    (listId notes dueDate : Option String) (now : String)
    (hids : ∀ x ∈ db.todos, ∃ k, k < db.uuidCounter ∧ x.id = mkUUID k) :
    (createTodo db text listId notes dueDate now).1.done = false ∧
    (createTodo db text listId notes dueDate now).1.createdAt = now ∧
    (∀ l, listId = some l →
      (createTodo db text listId notes dueDate now).1.listId = some l) ∧
    (listId = none →
      (createTodo db text listId notes dueDate now).1.listId =
        some "default-list") ∧
    (createTodo db text listId notes dueDate now).1.id = mkUUID db.uuidCounter ∧
    (∀ x ∈ db.todos, x.id ≠ (createTodo db text listId notes dueDate now).1.id) ∧
    (createTodo db text listId notes dueDate now).2.todos =
      db.todos ++ [(createTodo db text listId notes dueDate now).1] := by
  refine ⟨rfl, rfl, ?_, ?_, rfl, ?_, rfl⟩
  · intro l hl
    simp [createTodo, hl]
  · intro hl
    simp [createTodo, hl]
  · intro x hx hcontra
    obtain ⟨k, hk, hxk⟩ := hids x hx
    have hkc : mkUUID k = mkUUID db.uuidCounter := by
      rw [← hxk]
      exact hcontra
    have := mkUUID_injective hkc
    omega

theorem createTodo_spec_witness :
    (∀ x ∈ emptyDB.todos, ∃ k, k < emptyDB.uuidCounter ∧ x.id = mkUUID k) ∧
    ((createTodo emptyDB "walk the dog" none none none "2024-01-01T00:00:00Z").1.done = false ∧
     (createTodo emptyDB "walk the dog" none none none "2024-01-01T00:00:00Z").1.createdAt =
       "2024-01-01T00:00:00Z" ∧
     (∀ l, (none : Option String) = some l →
       (createTodo emptyDB "walk the dog" none none none "2024-01-01T00:00:00Z").1.listId =
         some l) ∧
     ((none : Option String) = none →
       (createTodo emptyDB "walk the dog" none none none "2024-01-01T00:00:00Z").1.listId =
         some "default-list") ∧
     (createTodo emptyDB "walk the dog" none none none "2024-01-01T00:00:00Z").1.id =
       mkUUID emptyDB.uuidCounter ∧
     (∀ x ∈ emptyDB.todos, x.id ≠
       (createTodo emptyDB "walk the dog" none none none "2024-01-01T00:00:00Z").1.id) ∧
     (createTodo emptyDB "walk the dog" none none none "2024-01-01T00:00:00Z").2.todos =
       emptyDB.todos ++
         [(createTodo emptyDB "walk the dog" none none none "2024-01-01T00:00:00Z").1]) :=
  ⟨by intro x hx; simp [emptyDB] at hx,
   createTodo_spec emptyDB "walk the dog" none none none "2024-01-01T00:00:00Z"
     (by intro x hx; simp [emptyDB] at hx)⟩

/-- C8 counterexample: with the empty string as the given `listId`
argument, `getTodosByList` returns every task (the argument is falsy in JS
and treated like an omitted one), not the tasks whose `listId` equals
`""` — refuting the given-argument case of the claim at `listId = ""`. -/
theorem getTodosByList_empty_string_counterexample :
    getTodosByList doneTaskDB (some "") ≠
      doneTaskDB.todos.filter (fun t => t.listId == some "") ∧
    getTodosByList doneTaskDB (some "") = doneTaskDB.todos := by
  decide

/-- C8 (amended): when a NON-EMPTY `listId` is given, `getTodosByList`
returns exactly the tasks whose `listId` equals it; when the argument is
omitted — or is the falsy empty string — it returns the same sequence as
`getAllTodos`; and for a non-empty `listId` matching no task (in
particular, one referencing no existing list) it returns the empty
sequence, never a fault. -/
theorem getTodosByList_spec (db : DB) :
    (∀ l : String, l ≠ "" →
      getTodosByList db (some l) =
        db.todos.filter (fun t => t.listId == some l)) ∧
    getTodosByList db none = getAllTodos db ∧
    getTodosByList db (some "") = getAllTodos db ∧
    (∀ l : String, l ≠ "" → (∀ t ∈ db.todos, t.listId ≠ some l) →
      getTodosByList db (some l) = []) := by
  refine ⟨?_, rfl, ?_, ?_⟩
  · intro l hl
    simp [getTodosByList, truthyStr, hl]
  · simp [getTodosByList, truthyStr, getAllTodos]
  · intro l hl ht
    simp only [getTodosByList, truthyStr]
    simp only [hl, beq_iff_eq, if_true, Bool.not_eq_true']
    rw [if_pos]
    · rw [List.filter_eq_nil_iff]
      intro a ha
      simpa using ht a ha
    · simp [hl]

theorem getTodosByList_spec_witness :
    ("zz" ≠ "" ∧ (∀ t ∈ doneTaskDB.todos, t.listId ≠ some "zz")) ∧
    getTodosByList doneTaskDB (some "zz") = [] :=
  ⟨⟨by decide, by decide⟩,
   (getTodosByList_spec doneTaskDB).2.2.2 "zz" (by decide) (by decide)⟩

/-- C9: `getAllLists` returns all stored list rows (a permutation of the
list table, whatever the insertion order) sorted ascending by `name`. -/
theorem getAllLists_sorted_by_name (db : DB) :
    (getAllLists db).Pairwise (fun a b => a.name ≤ b.name) ∧
    (getAllLists db).Perm db.lists := by
  constructor
  · have hs := @List.sorted_mergeSort ListRow
      (fun a b => a.name ≤ b.name)
      (fun a b c hab hbc => by
        simp only [decide_eq_true_eq] at hab hbc ⊢
        exact le_trans hab hbc)
      (fun a b => by
        simpa using le_total a.name b.name)
      db.lists
    exact hs.imp (fun hab => by simpa using hab)
  · exact List.mergeSort_perm db.lists _

lemma updateTodoStatus_not_found (db : DB) (id : String) (d : Bool)
    (hf : db.todos.find? (fun t => t.id == id) = none) :
    updateTodoStatus db id d = (none, db) := by
  simp only [updateTodoStatus]
  rw [find?_map_ifid db.todos id (fun t => { t with done := d }) (fun t => rfl), hf]
  rfl

lemma updateTodo_not_found (db : DB) (id : String) (u : TodoUpdates)
    (hf : db.todos.find? (fun t => t.id == id) = none) :
    updateTodo db id u = (none, db) := by
  simp only [updateTodo]
  rw [hf]

lemma notesWF_initializeDB (db : DB) (h : NotesWF db) :
    NotesWF (initializeDB db) := by
  intro t ht
  by_cases hc : db.todosCreated <;> simp [initializeDB, hc] at ht
  · rcases ht with ht | ht | ht | ht
    · exact h t ht
    all_goals (subst ht; simp)
  · rcases ht with ht | ht | ht
    all_goals (subst ht; simp)

lemma upgradeToVersion2_todos (db : DB) :
    (upgradeToVersion2 db).todos = db.todos.map (fun t =>
      if t.listId == none then { t with listId := some "default-list" } else t) := by
  simp only [upgradeToVersion2]
  split_ifs <;> rfl

lemma notesWF_upgradeToVersion2 (db : DB) (h : NotesWF db) :
    NotesWF (upgradeToVersion2 db) := by
  intro t ht
  rw [upgradeToVersion2_todos] at ht
  simp only [List.mem_map] at ht
  obtain ⟨x, hx, rfl⟩ := ht
  by_cases hl : (x.listId == none) = true <;> simp [hl] <;> exact h x hx

lemma notesWF_migrateDB (db : DB) (h : NotesWF db) : NotesWF (migrateDB db) := by
  have hcases : db.userVersion = 2 ∨ db.userVersion = 0 ∨ db.userVersion = 1 ∨
      (db.userVersion ≠ 2 ∧ db.userVersion ≠ 0 ∧ db.userVersion ≠ 1) := by
    omega
  rcases hcases with hv | hv | hv | ⟨hv2, hv0, hv1⟩
  · rw [migrateDB_fix db hv]
    exact h
  · have e : migrateDB db =
        { upgradeToVersion2 (initializeDB db) with userVersion := 2 } := by
      unfold migrateDB
      simp [hv]
    rw [e]
    intro t ht
    exact notesWF_upgradeToVersion2 _ (notesWF_initializeDB _ h) t ht
  · have e : migrateDB db = { upgradeToVersion2 db with userVersion := 2 } := by
      unfold migrateDB
      simp [hv]
    rw [e]
    intro t ht
    exact notesWF_upgradeToVersion2 _ h t ht
  · have e : migrateDB db = { db with userVersion := 2 } := by
      unfold migrateDB
      simp [hv2, hv0, hv1]
    rw [e]
    intro t ht
    exact h t ht

lemma notesWF_createTodo (db : DB) (text : String)
    (listId notes dueDate : Option String) (now : String) (h : NotesWF db) :
    NotesWF (createTodo db text listId notes dueDate now).2 := by
  intro t ht
  simp only [createTodo, List.mem_append, List.mem_singleton] at ht
  rcases ht with ht | ht
  · exact h t ht
  · subst ht
    exact orNull_ne_empty notes

lemma notesWF_updateTodoStatus (db : DB) (id : String) (d : Bool)
    (h : NotesWF db) : NotesWF (updateTodoStatus db id d).2 := by
  cases hfind : db.todos.find? (fun t => t.id == id) with
  | none =>
    rw [updateTodoStatus_not_found db id d hfind]
    exact h
  | some t0 =>
    rw [updateTodoStatus_found db id d t0 hfind]
    intro t ht
    simp only [List.mem_map] at ht
    obtain ⟨x, hx, rfl⟩ := ht
    by_cases hxid : (x.id == id) = true <;> simp [hxid] <;> exact h x hx

lemma notesWF_updateTodo (db : DB) (id : String) (u : TodoUpdates)
    (h : NotesWF db) : NotesWF (updateTodo db id u).2 := by
  cases hfind : db.todos.find? (fun t => t.id == id) with
  | none =>
    rw [updateTodo_not_found db id u hfind]
    exact h
  | some t0 =>
    rw [updateTodo_found db id u t0 hfind]
    intro t ht
    simp only [List.mem_map] at ht
    obtain ⟨x, hx, rfl⟩ := ht
    by_cases hxid : (x.id == id) = true <;> simp [hxid]
    · exact orNull_ne_empty _
    · exact h x hx

/-- C10: no DAL write ever persists an empty-string `notes`: `createTodo`
called with empty-string notes returns a row with `notes` absent;
`updateTodo` whose merged notes value is the empty string persists absent
notes; neither ever returns an empty-string notes; and the invariant
"every stored task's notes is either absent or non-empty" (`NotesWF`) is
preserved by migration and every DAL write operation. -/
theorem notes_empty_string_never_persisted (db : DB) :
    (∀ text listId dueDate now,
      (createTodo db text listId (some "") dueDate now).1.notes = none) ∧
    (∀ id u tRow, db.todos.find? (fun t => t.id == id) = some tRow →
      jsNullish u.notes tRow.notes = some "" →
      (updateTodo db id u).1.map (fun r => r.notes) = some none) ∧
    (∀ text listId notes dueDate now,
      (createTodo db text listId notes dueDate now).1.notes ≠ some "") ∧
    (∀ id u r, (updateTodo db id u).1 = some r → r.notes ≠ some "") ∧
    (NotesWF db → NotesWF (migrateDB db)) ∧
    (∀ text listId notes dueDate now, NotesWF db →
      NotesWF (createTodo db text listId notes dueDate now).2) ∧
    (∀ id d, NotesWF db → NotesWF (updateTodoStatus db id d).2) ∧
    (∀ id u, NotesWF db → NotesWF (updateTodo db id u).2) ∧
    (∀ name, NotesWF db → NotesWF (createList db name).2) := by
  refine ⟨?_, ?_, ?_, ?_, notesWF_migrateDB db, ?_, ?_, ?_, ?_⟩
  · intro text listId dueDate now
    rfl
  · intro id u tRow hfind hmerged
    rw [updateTodo_found db id u tRow hfind]
    simp only [Option.map_some]
    rw [hmerged]
    rfl
  · intro text listId notes dueDate now
    exact orNull_ne_empty notes
  · intro id u r hr
    cases hfind : db.todos.find? (fun t => t.id == id) with
    | none =>
      rw [updateTodo_not_found db id u hfind] at hr
      exact absurd hr (by simp)
    | some t0 =>
      rw [updateTodo_found db id u t0 hfind] at hr
      have : r = { t0 with
          text := u.text.getD t0.text,
          notes := orNull (jsNullish u.notes t0.notes),
          dueDate := jsNullish u.dueDate t0.dueDate,
          listId := jsNullish u.listId t0.listId } :=
        (Option.some.injEq _ _ ▸ hr).symm
      subst this
      exact orNull_ne_empty _
  · intro text listId notes dueDate now h
    exact notesWF_createTodo db text listId notes dueDate now h
  · intro id d h
    exact notesWF_updateTodoStatus db id d h
  · intro id u h
    exact notesWF_updateTodo db id u h
  · intro name h t ht
    exact h t ht

theorem notes_empty_string_never_persisted_witness :
    (NotesWF doneTaskDB ∧
     doneTaskDB.todos.find? (fun t => t.id == "t1") = some doneRow ∧
     jsNullish (TodoUpdates.notes { notes := some "" }) doneRow.notes = some "") ∧
    NotesWF (migrateDB doneTaskDB) ∧
    (updateTodo doneTaskDB "t1" { notes := some "" }).1.map (fun r => r.notes) =
      some none :=
  ⟨⟨by decide, by decide, by decide⟩,
   (notes_empty_string_never_persisted doneTaskDB).2.2.2.2.1 (by decide),
   (notes_empty_string_never_persisted doneTaskDB).2.1 "t1" { notes := some "" }
     doneRow (by decide) (by decide)⟩
